import Mathlib

/-!
Verification of the state-synchronization engine of fw16-kbd-uleds
(fw16-kbd-uleds.c), a bridge between QMK keyboard-backlight modules and a
virtual LED device.  The pure brightness arithmetic is embedded directly;
the effectful paths of the event loop (hardware writes, sysfs updates,
UI notification, device creation) are embedded as state-transition
functions that return the successor state together with the list of
external actions they emit, with the outcomes of external reads supplied
as explicit inputs or oracle functions.
-/

set_option maxRecDepth 8192

namespace FW16

/-! ### Brightness arithmetic (clamp_pct, pct_to_level, level_to_qmk_pct, decode_uleds) -/

/-- Source function `clamp_pct`: clamp a percent value to at most 100. -/
def clamp_pct (v : Nat) : Nat :=
  if v > 100 then 100 else v

/-- Source function `pct_to_level`: bucket a percent into a discrete level 0..3. -/
def pct_to_level (pct0 : Nat) : Nat :=
  let pct := clamp_pct pct0
  if pct ≤ 16 then 0
  else if pct ≤ 50 then 1
  else if pct ≤ 83 then 2
  else 3

/-- Source function `level_to_qmk_pct`: representative hardware percent per level. -/
def level_to_qmk_pct (level : Nat) : Nat :=
  match level with
  | 0 => 0
  | 1 => 35
  | 2 => 67
  | _ => 100

/-- Source function `decode_uleds`: a 1-byte read yields the byte, a read of at
least 4 bytes yields the little-endian 32-bit value of the first four bytes,
anything else yields 0.  The buffer is modelled as the list of bytes read. -/
def decode_uleds (buf : List Nat) : Nat :=
  if buf.length = 1 then buf.headD 0
  else if 4 ≤ buf.length then
    buf.getD 0 0 + 256 * buf.getD 1 0 + 65536 * buf.getD 2 0 + 16777216 * buf.getD 3 0
  else 0

/-- Byte quantization in `qmk_set`: `(unsigned char)((pct * 255 + 50) / 100)`. -/
def qmk_set_val (pct : Nat) : Nat :=
  ((pct * 255 + 50) / 100) % 256

/-- Percent reconstruction in `qmk_get` from a response byte: `(val * 100 + 127) / 255`. -/
def qmk_get_pct (val : Nat) : Nat :=
  (val * 100 + 127) / 255

/-! ### Targets (target_t, target_eq, target_in_list, get_type) -/

/-- Source struct `target_t`: one physical module. -/
structure Target where
  vid : Nat
  pid : Nat
  hidraw : String
deriving DecidableEq, Repr

instance : Inhabited Target := ⟨⟨0, 0, ""⟩⟩

/-- Source function `target_eq`: equality on vendor id and product id only. -/
def target_eq (a b : Target) : Bool :=
  a.vid == b.vid && a.pid == b.pid

/-- Source function `target_in_list`: membership by `target_eq`. -/
def target_in_list (l : List Target) (t : Target) : Bool :=
  l.any fun x => target_eq x t

/-- Source function `get_type`: category of a product id
(0 keyboard, 1 numpad, 2 macropad, 3 misc). -/
def get_type (pid : Nat) : Nat :=
  if pid = 0x0012 ∨ pid = 0x0018 ∨ pid = 0x0019 then 0
  else if pid = 0x0014 then 1
  else if pid = 0x0013 then 2
  else 3

/-- Source array `type_names`. -/
def type_names : List String :=
  ["framework::kbd_backlight", "framework::numpad_backlight",
   "framework::macropad_backlight", "framework::aux_backlight"]

/-! ### External actions emitted by the engine -/

/-- One externally visible effect of the engine: a hardware brightness write to
one target (`qmk_set`), a write of the brightness value to the virtual device
file and the companion change notification (`update_sysfs_brightness`), the UI
fan-out (`sync_ui`), or the creation of a virtual LED device
(`create_uleds_led`). -/
inductive Action where
  | hwSet (t : Target) (pct : Nat)
  | sysfsWrite (name : String) (val : Nat)
  | sysfsNotify (name : String)
  | notifyUI (level : Nat)
  | createDev (name : String) (maxBrightness : Nat)
deriving DecidableEq, Repr

/-- Recognizer for virtual-device creation actions. -/
def is_create_act : Action → Bool
  | .createDev _ _ => true
  | _ => false

/-- The skip test inside the `qmk_apply_all` loop:
`if (skip && target_eq(&targets[i], skip)) continue;`. -/
def skip_hit (skip : Option Target) (t : Target) : Bool :=
  match skip with
  | some m => target_eq t m
  | none => false

/-- The loop body of `qmk_apply_all`: one `qmk_set` per non-skipped target. -/
def qmk_apply_loop (ts : List Target) (pct : Nat) (skip : Option Target) : List Action :=
  match ts with
  | [] => []
  | t :: rest =>
    if skip_hit skip t then qmk_apply_loop rest pct skip
    else Action.hwSet t pct :: qmk_apply_loop rest pct skip

/-- Source function `qmk_apply_all`: apply a level (as its representative
hardware percent) to every target except the optional skip target. -/
def qmk_apply_all (ts : List Target) (level : Nat) (skip : Option Target) : List Action :=
  qmk_apply_loop ts (level_to_qmk_pct level) skip

/-! ### Group contexts (uled_ctx_t) -/

/-- Source struct `uled_ctx_t`: one group context.  The zero state produced
by `memset(ctxs, 0, sizeof(ctxs))` is the default value below. -/
structure Slot where
  name : String
  fd : Int
  targets : List Target
  master : Target
  last_level : Nat
deriving DecidableEq, Repr

instance : Inhabited Slot := ⟨⟨"", 0, [], default, 0⟩⟩

/-! ### Event-loop steps -/

/-- The virtual-device event branch of the main loop (one group): decode the
raw value read from the uleds fd, convert to a level, and if it differs from
`last_level` apply it to all targets (no skip) and record it. -/
def uleds_step (maxb : Nat) (s : Slot) (buf : List Nat) : Slot × List Action :=
  if 0 < buf.length then
    if pct_to_level (decode_uleds buf * 100 / maxb) ≠ s.last_level then
      ({ s with last_level := pct_to_level (decode_uleds buf * 100 / maxb) },
       qmk_apply_all s.targets (pct_to_level (decode_uleds buf * 100 / maxb)) none)
    else (s, [])
  else (s, [])

/-- The hardware-polling branch of the main loop (one group).  The input is
the result of `qmk_get` on the master target (`none` models a failed read).
On a changed level the code updates `last_level`, applies to all targets
except the master, updates the virtual device file and notifies the UI. -/
def poll_step (maxb : Nat) (s : Slot) (pg : Option Nat) : Slot × List Action :=
  match pg with
  | none => (s, [])
  | some p =>
    if pct_to_level p ≠ s.last_level then
      ({ s with last_level := pct_to_level p },
       qmk_apply_all s.targets (pct_to_level p) (some s.master)
         ++ [Action.sysfsWrite s.name (pct_to_level p * maxb / 3),
             Action.sysfsNotify s.name,
             Action.notifyUI (pct_to_level p)])
    else (s, [])

/-! ### Startup initialization (main, lines 666-701) -/

/-- The master-selection loop: start from `targets[0]` and replace it with the
first target whose category is keyboard. -/
def pick_master_loop (ts : List Target) (cur : Target) : Target :=
  match ts with
  | [] => cur
  | t :: rest => if get_type t.pid == 0 then t else pick_master_loop rest cur

/-- Master selection for a group context. -/
def pick_master (ts : List Target) : Target :=
  pick_master_loop ts (ts.headD default)

/-- The initial level of a group: the master's hardware percent converted to a
level, or 0 when the (retried) read fails persistently.  `gp` is the oracle
giving the outcome of `qmk_get` on a target. -/
def init_level (gp : Target → Option Nat) (s : Slot) : Nat :=
  match gp (pick_master s.targets) with
  | some p => pct_to_level p
  | none => 0

/-- Initialization of one nonempty group context, given the created device
handle `fd`: select the master, acquire the initial level, record it, write
the scaled value to the virtual device file, propagate to the targets when the
group has more than one member (with no skip target), and notify the UI. -/
def init_ctx (s : Slot) (fd : Int) (gp : Target → Option Nat) (maxb : Nat) :
    Slot × List Action :=
  ({ s with fd := fd, master := pick_master s.targets, last_level := init_level gp s },
   [Action.sysfsWrite s.name (init_level gp s * maxb / 3), Action.sysfsNotify s.name]
     ++ (if 1 < s.targets.length then qmk_apply_all s.targets (init_level gp s) none else [])
     ++ [Action.notifyUI (init_level gp s)])

/-- The startup initialization loop over the four contexts: a context with at
least one target gets a virtual device created (`cf` is the creation oracle;
a negative handle aborts the whole startup, modelled as `none`) and is
initialized; a context with no targets is left untouched. -/
def init_all (cs : List Slot) (cf : String → Int) (gp : Target → Option Nat)
    (maxb : Nat) : Option (List Slot × List Action) :=
  match cs with
  | [] => some ([], [])
  | s :: rest =>
    if 0 < s.targets.length then
      if cf s.name < 0 then none
      else
        match init_all rest cf gp maxb with
        | none => none
        | some (ss, acts) =>
          some ((init_ctx s (cf s.name) gp maxb).1 :: ss,
                (Action.createDev s.name maxb :: (init_ctx s (cf s.name) gp maxb).2) ++ acts)
    else
      match init_all rest cf gp maxb with
      | none => none
      | some (ss, acts) => some (s :: ss, acts)

/-! ### Grouping (main, lines 641-664) -/

/-- Operating mode of the bridge. -/
inductive Mode where
  | unified
  | separate
deriving DecidableEq, Repr

/-- The four zeroed contexts (`memset(ctxs, 0, sizeof(ctxs))`). -/
def init_slots : List Slot := [default, default, default, default]

/-- One step of the separate-mode grouping loop: route the target to the
context of its category, naming it and marking it for creation (fd = -1) when
it receives its first member, and appending subject to the capacity of 16. -/
def assign_sep (cs : List Slot) (t : Target) : List Slot :=
  let i := get_type t.pid
  let s0 := cs.getD i default
  let s1 := if s0.targets.length = 0 then
      { s0 with name := type_names.getD i "", fd := -1 }
    else s0
  let s2 := if s1.targets.length < 16 then { s1 with targets := s1.targets ++ [t] } else s1
  cs.set i s2

/-- Grouping of the merged target list into contexts: separate mode routes by
category; unified mode puts the first 16 targets into context 0 under the name
"framework::kbd_backlight". -/
def grouping (mode : Mode) (all : List Target) : List Slot :=
  match mode with
  | .separate => all.foldl assign_sep init_slots
  | .unified =>
    [{ name := "framework::kbd_backlight", fd := -1, targets := all.take 16,
       master := default, last_level := 0 },
     default, default, default]

/-! ### Discovery (autodetect_targets) -/

/-- The fixed probe list of product ids in `autodetect_targets`. -/
def pids_probe : List Nat := [0x0012, 0x0018, 0x0019, 0x0014, 0x0013]

/-- The nested scan loop of `autodetect_targets` over (vid, pid) pairs.
`find` is the oracle for `find_raw_hidraw`, giving the hidraw node (if any)
for a vendor/product pair.  A found target is appended only below capacity
and only when no target with the same vendor/product pair is present. -/
def autodetect_loop (find : Nat → Nat → Option String) (cap : Nat) :
    List (Nat × Nat) → List Target → List Target
  | [], acc => acc
  | (v, p) :: rest, acc =>
    let acc' :=
      match find v p with
      | none => acc
      | some h =>
        if acc.length < cap then
          if target_in_list acc ⟨v, p, h⟩ then acc else acc ++ [⟨v, p, h⟩]
        else acc
    autodetect_loop find cap rest acc'

/-- Source function `autodetect_targets`, as called at startup and on hotplug
(empty output list, capacity 16). -/
def autodetect_targets (vids : List Nat) (find : Nat → Nat → Option String) : List Target :=
  autodetect_loop find 16 (vids.flatMap fun v => pids_probe.map fun p => (v, p)) []

/-! ### Hotplug reconciliation (main, lines 822-845) -/

/-- The category a target routes to: its `get_type` category in separate mode,
always 0 in unified mode. -/
def route_ty (mode : Mode) (pid : Nat) : Nat :=
  match mode with
  | .separate => get_type pid
  | .unified => 0

/-- The inner hotplug loop for context `i`: rebuild the membership from the
freshly merged target list, applying the context's `last_level` to each target
not present in the old membership before inserting it (capacity 16).  Removed
targets are only logged in the source and emit no action. -/
def reconcile_loop (mode : Mode) (i : Nat) (old : List Target) (lvl : Nat) :
    List Target → List Target → List Action → List Target × List Action
  | [], acc, acts => (acc, acts)
  | t :: rest, acc, acts =>
    if route_ty mode t.pid = i ∧ acc.length < 16 then
      reconcile_loop mode i old lvl rest (acc ++ [t])
        (if target_in_list old t then acts
         else acts ++ [Action.hwSet t (level_to_qmk_pct lvl)])
    else
      reconcile_loop mode i old lvl rest acc acts

/-- Hotplug reconciliation of one context against the freshly merged list. -/
def reconcile (mode : Mode) (i : Nat) (s : Slot) (new_all : List Target) :
    Slot × List Action :=
  let r := reconcile_loop mode i s.targets s.last_level new_all [] []
  ({ s with targets := r.1 }, r.2)

/-! ### Sample targets and states used in concrete evaluations -/

/-- The Framework keyboard target 32ac:0012. -/
def t12 : Target := ⟨0x32ac, 0x0012, "hidraw0"⟩

/-- The Framework numpad target 32ac:0014. -/
def t14 : Target := ⟨0x32ac, 0x0014, "hidraw1"⟩

/-- A group state used in concrete evaluations of the event-loop steps. -/
def sW1 : Slot :=
  { name := "framework::kbd_backlight", fd := 3, targets := [t12, t14],
    master := t12, last_level := 2 }

/-- A group state with `last_level` = 1 used for the poll scenario. -/
def sW2 : Slot :=
  { name := "framework::kbd_backlight", fd := 3, targets := [t12, t14],
    master := t12, last_level := 1 }

/-- A freshly grouped two-member context as it enters startup initialization. -/
def sInit : Slot :=
  { name := "framework::kbd_backlight", fd := -1, targets := [t12, t14],
    master := default, last_level := 0 }

/-- A one-member group context before a hotplug event. -/
def sW4 : Slot :=
  { name := "framework::kbd_backlight", fd := 3, targets := [t12],
    master := t12, last_level := 2 }

/-- The full startup (grouping followed by context initialization) in unified
mode with the single discovered target 32ac:0012, a device-creation oracle
returning handle 3, and a hardware read of 0 percent. -/
def startup_kbd_only : Option (List Slot × List Action) :=
  init_all (grouping .unified [t12]) (fun _ => 3) (fun _ => some 0) 3

/-! ### Characterization of the apply loop -/

/-- With no skip target, the apply loop issues one hardware write per target. -/
theorem qmk_apply_loop_none (ts : List Target) (pct : Nat) :
    qmk_apply_loop ts pct none = ts.map fun t => Action.hwSet t pct := by
  induction ts with
  | nil => rfl
  | cons t rest ih => simp [qmk_apply_loop, skip_hit, ih]

/-- With a skip target, the apply loop issues one hardware write per target not
equal (by vendor/product) to the skip target. -/
theorem qmk_apply_loop_some (ts : List Target) (pct : Nat) (m : Target) :
    qmk_apply_loop ts pct (some m) =
      (ts.filter fun t => !(target_eq t m)).map fun t => Action.hwSet t pct := by
  induction ts with
  | nil => rfl
  | cons t rest ih =>
    by_cases h : target_eq t m
    · simp [qmk_apply_loop, skip_hit, h, ih]
    · simp only [Bool.not_eq_true] at h
      simp [qmk_apply_loop, skip_hit, h, ih]

/-! ### C1: idempotence of the two triggers -/

/-- C1: if a virtual-device event or a master poll read computes a discrete
level equal to the group's `last_level`, no hardware write is issued and the
group state is unchanged; and applying the same trigger twice in a row
produces at most one hardware write pass (the second application is a no-op
leaving the state fixed). -/
theorem trigger_idempotent_spec (maxb : Nat) (s : Slot) (buf : List Nat) (p : Nat)
    (pg : Option Nat) :
    (pct_to_level (decode_uleds buf * 100 / maxb) = s.last_level →
      uleds_step maxb s buf = (s, [])) ∧
    (pct_to_level p = s.last_level → poll_step maxb s (some p) = (s, [])) ∧
    uleds_step maxb (uleds_step maxb s buf).1 buf = ((uleds_step maxb s buf).1, []) ∧
    poll_step maxb (poll_step maxb s pg).1 pg = ((poll_step maxb s pg).1, []) := by
  refine ⟨?_, ?_, ?_, ?_⟩
  · intro h
    simp [uleds_step, h]
  · intro h
    simp [poll_step, h]
  · by_cases hl : 0 < buf.length
    · by_cases he : pct_to_level (decode_uleds buf * 100 / maxb) = s.last_level
      · simp [uleds_step, hl, he]
      · simp [uleds_step, hl, he]
    · simp [uleds_step, hl]
  · match pg with
    | none => rfl
    | some p2 =>
      by_cases he : pct_to_level p2 = s.last_level
      · simp [poll_step, he]
      · simp [poll_step, he]

/-- C1 witness: with `last_level` = 2, a uleds event decoding to raw 2 at
maximum brightness 3 and a poll reading 66 percent both map to level 2 and
leave the state untouched with no actions. -/
theorem trigger_idempotent_at :
    (pct_to_level (decode_uleds [2] * 100 / 3) = sW1.last_level ∧
      uleds_step 3 sW1 [2] = (sW1, [])) ∧
    (pct_to_level 66 = sW1.last_level ∧ poll_step 3 sW1 (some 66) = (sW1, [])) := by
  have h := trigger_idempotent_spec 3 sW1 [2] 66 none
  exact ⟨⟨by decide, h.1 (by decide)⟩, by decide, h.2.1 (by decide)⟩

/-! ### C2: poll-tick behavior -/

/-- C2: on a poll tick, when the master read succeeds with a percent mapping
to a level different from `last_level`, the level is propagated to every
member except the master, the virtual device's brightness file is updated and
its change notification triggered, `last_level` is set to the new level, and
the UI notifier is invoked; when the master read fails, no action is taken
and the state is unchanged. -/
theorem poll_tick_spec (maxb : Nat) (s : Slot) (p : Nat) :
    (pct_to_level p ≠ s.last_level →
      poll_step maxb s (some p) =
        ({ s with last_level := pct_to_level p },
         ((s.targets.filter fun t => !(target_eq t s.master)).map
            fun t => Action.hwSet t (level_to_qmk_pct (pct_to_level p)))
           ++ [Action.sysfsWrite s.name (pct_to_level p * maxb / 3),
               Action.sysfsNotify s.name,
               Action.notifyUI (pct_to_level p)])) ∧
    poll_step maxb s none = (s, []) := by
  constructor
  · intro h
    simp [poll_step, h, qmk_apply_all, qmk_apply_loop_some]
  · rfl

/-- C2 witness: the spec scenario — the master poll reads hardware percent 100
while `last_level` = 1; the group transitions to level 3, propagates to the
non-master member only, updates the virtual device file, triggers its change
notification and makes one UI notification call. -/
theorem poll_tick_at :
    pct_to_level 100 ≠ sW2.last_level ∧
    poll_step 3 sW2 (some 100) =
      ({ sW2 with last_level := 3 },
       [Action.hwSet t14 100,
        Action.sysfsWrite "framework::kbd_backlight" 3,
        Action.sysfsNotify "framework::kbd_backlight",
        Action.notifyUI 3]) := by
  refine ⟨by decide, ?_⟩
  exact (poll_tick_spec 3 sW2 100).1 (by decide)

/-! ### C3: initial propagation -/

/-- C3 counterexample: during init of a two-member group whose master is
32ac:0012 and whose initial hardware read gives 100 percent, the master itself
receives a hardware write of the initial level, so the master is not excluded
from the initial propagation (init passes no skip target to the apply pass). -/
theorem init_master_written :
    (init_ctx sInit 3 (fun _ => some 100) 3).1.master = t12 ∧
    Action.hwSet t12 100 ∈ (init_ctx sInit 3 (fun _ => some 100) 3).2 := by
  decide

/-- C3 (amended): during init of every group, after the initial hardware level
is acquired (or assumed 0 on persistent read failure), that level is set as
`last_level`, written in UI scale to the virtual device file with a change
notification, propagated — when the group has more than one member — to every
member of the group including the master (no member is excluded), and the UI
notifier is invoked. -/
theorem init_ctx_spec (s : Slot) (fd : Int) (gp : Target → Option Nat) (maxb : Nat) :
    (init_ctx s fd gp maxb).1.last_level = init_level gp s ∧
    (init_ctx s fd gp maxb).2 =
      [Action.sysfsWrite s.name (init_level gp s * maxb / 3), Action.sysfsNotify s.name]
        ++ (if 1 < s.targets.length then
              s.targets.map fun t => Action.hwSet t (level_to_qmk_pct (init_level gp s))
            else [])
        ++ [Action.notifyUI (init_level gp s)] := by
  refine ⟨rfl, ?_⟩
  simp [init_ctx, qmk_apply_all, qmk_apply_loop_none]

/-! ### C4: hotplug reconciliation -/

/-- The hotplug loop for one context rebuilds the membership as the routed
targets of the fresh list (within capacity), emitting one hardware write at
the context's `last_level` for each routed target absent from the old
membership. -/
theorem reconcile_loop_spec (mode : Mode) (i : Nat) (old : List Target) (lvl : Nat)
    (l : List Target) :
    ∀ (acc : List Target) (acts : List Action),
      acc.length + (l.filter fun u => decide (route_ty mode u.pid = i)).length ≤ 16 →
      reconcile_loop mode i old lvl l acc acts =
        (acc ++ l.filter fun u => decide (route_ty mode u.pid = i),
         acts ++ ((l.filter fun u =>
              decide (route_ty mode u.pid = i) && !(target_in_list old u)).map
            fun u => Action.hwSet u (level_to_qmk_pct lvl))) := by
  induction l with
  | nil =>
    intro acc acts _
    simp [reconcile_loop]
  | cons t rest ih =>
    intro acc acts h
    by_cases hr : route_ty mode t.pid = i
    · have hf : List.filter (fun u => decide (route_ty mode u.pid = i)) (t :: rest) =
          t :: List.filter (fun u => decide (route_ty mode u.pid = i)) rest := by
        simp [hr]
      rw [hf] at h
      simp only [List.length_cons] at h
      have hlen : acc.length < 16 := by omega
      have hb : (acc ++ [t]).length +
          (List.filter (fun u => decide (route_ty mode u.pid = i)) rest).length ≤ 16 := by
        simp only [List.length_append, List.length_cons, List.length_nil]
        omega
      by_cases hin : target_in_list old t
      · have hrec := ih (acc ++ [t]) acts hb
        simp only [reconcile_loop]
        rw [if_pos ⟨hr, hlen⟩]
        simp only [hin, if_true, ite_true]
        rw [hrec, hf]
        simp [hr, hin, List.append_assoc]
      · simp only [Bool.not_eq_true] at hin
        have hrec := ih (acc ++ [t]) (acts ++ [Action.hwSet t (level_to_qmk_pct lvl)]) hb
        simp only [reconcile_loop]
        rw [if_pos ⟨hr, hlen⟩]
        simp only [hin, if_false, ite_false, Bool.false_eq_true]
        rw [hrec, hf]
        simp [hr, hin, List.append_assoc]
    · simp only [reconcile_loop]
      rw [if_neg (by intro hc; exact hr hc.1)]
      have hf : List.filter (fun u => decide (route_ty mode u.pid = i)) (t :: rest) =
          List.filter (fun u => decide (route_ty mode u.pid = i)) rest := by
        simp [hr]
      rw [hf] at h
      rw [ih acc acts h, hf]
      simp [hr]

/-- C4: for a relevant hotplug signal, with M the old membership of a group
and N the freshly rediscovered merged set, provided the targets of N routed to
the group fit the membership capacity of 16, the new membership is exactly the
targets of N whose category routes to the group; every routed target of N\\M
gets one hardware write at the group's current `last_level`; no action is
emitted for targets of M\\N; and `last_level` is not recomputed. -/
theorem hotplug_reconcile_spec (mode : Mode) (i : Nat) (s : Slot) (new_all : List Target)
    (hcap : (new_all.filter fun u => decide (route_ty mode u.pid = i)).length ≤ 16) :
    reconcile mode i s new_all =
      ({ s with targets := new_all.filter fun u => decide (route_ty mode u.pid = i) },
       (new_all.filter fun u =>
           decide (route_ty mode u.pid = i) && !(target_in_list s.targets u)).map
         fun u => Action.hwSet u (level_to_qmk_pct s.last_level)) ∧
    (reconcile mode i s new_all).1.last_level = s.last_level := by
  have h := reconcile_loop_spec mode i s.targets s.last_level new_all [] []
    (by simpa using hcap)
  constructor
  · simp [reconcile, h]
  · simp [reconcile, h]

/-- C4 witness: the numpad 32ac:0014 appears next to the already-present
keyboard 32ac:0012 in unified mode; the group's membership becomes both
targets and only the numpad receives one hardware write at the current level
(level 2, hardware percent 67). -/
theorem hotplug_reconcile_at :
    (([t12, t14].filter fun u => decide (route_ty .unified u.pid = 0)).length ≤ 16) ∧
    reconcile .unified 0 sW4 [t12, t14] =
      ({ sW4 with targets := [t12, t14] }, [Action.hwSet t14 67]) := by
  refine ⟨by decide, ?_⟩
  exact (hotplug_reconcile_spec .unified 0 sW4 [t12, t14] (by decide)).1

/-! ### C7: discovery returns no duplicate vendor/product pairs -/

/-- Failure of the `target_in_list` membership test means no element of the
list agrees with the candidate on vendor id and product id. -/
theorem target_in_list_false {l : List Target} {t : Target}
    (h : target_in_list l t = false) :
    ∀ a ∈ l, ¬(a.vid = t.vid ∧ a.pid = t.pid) := by
  intro a ha
  simp only [target_in_list, List.any_eq_false] at h
  have hx := h a ha
  intro hcon
  apply hx
  simp [target_eq, hcon.1, hcon.2]

/-- The scan loop preserves pairwise distinctness of vendor/product pairs. -/
theorem autodetect_loop_distinct (find : Nat → Nat → Option String) (cap : Nat) :
    ∀ (pairs : List (Nat × Nat)) (acc : List Target),
      acc.Pairwise (fun a b => ¬(a.vid = b.vid ∧ a.pid = b.pid)) →
      (autodetect_loop find cap pairs acc).Pairwise
        fun a b => ¬(a.vid = b.vid ∧ a.pid = b.pid) := by
  intro pairs
  induction pairs with
  | nil =>
    intro acc h
    simpa [autodetect_loop] using h
  | cons vp rest ih =>
    intro acc h
    obtain ⟨v, p⟩ := vp
    simp only [autodetect_loop]
    cases hf : find v p with
    | none =>
      simp only [hf]
      exact ih acc h
    | some hs =>
      simp only [hf]
      by_cases hc : acc.length < cap
      · by_cases hil : target_in_list acc ⟨v, p, hs⟩
        · simp only [hc, if_true, hil, ite_true]
          exact ih acc h
        · simp only [Bool.not_eq_true] at hil
          simp only [hc, if_true, hil, ite_false, Bool.false_eq_true]
          refine ih (acc ++ [⟨v, p, hs⟩]) ?_
          refine List.pairwise_append.mpr ⟨h, List.pairwise_singleton _ _, ?_⟩
          intro a ha b hb
          simp only [List.mem_singleton] at hb
          subst hb
          exact target_in_list_false hil a ha
      · simp only [hc, if_false]
        exact ih acc h

/-- C7: for every configured vendor-id list and every state of the HID node
scan (the `find_raw_hidraw` oracle), the target set returned by discovery
contains no two entries with equal vendor id and product id. -/
theorem autodetect_no_duplicates (vids : List Nat) (find : Nat → Nat → Option String) :
    (autodetect_targets vids find).Pairwise
      fun a b => ¬(a.vid = b.vid ∧ a.pid = b.pid) :=
  autodetect_loop_distinct find 16 _ [] List.Pairwise.nil

/-! ### C5, C6, C10: brightness arithmetic -/

/-- C5: for all percent values p in [0,100], `pct_to_level` is monotonically
non-decreasing, maps 0 to level 0 and 100 to level 3, never exceeds level 3,
and attains every level in {0,1,2,3}; hence it partitions [0,100] into
exactly 4 contiguous, gap-free, non-overlapping bands. -/
theorem pct_to_level_bands :
    (∀ p q : Fin 101, p.val ≤ q.val → pct_to_level p.val ≤ pct_to_level q.val) ∧
    pct_to_level 0 = 0 ∧ pct_to_level 100 = 3 ∧
    (∀ p : Fin 101, pct_to_level p.val ≤ 3) ∧
    (∀ l : Fin 4, ∃ p : Fin 101, pct_to_level p.val = l.val) := by
  refine ⟨by decide, rfl, rfl, by decide, by decide⟩

/-- C5 witness: monotonicity applied at the concrete pair 10 ≤ 60. -/
theorem pct_to_level_bands_at :
    pct_to_level 10 ≤ pct_to_level 60 :=
  pct_to_level_bands.1 ⟨10, by decide⟩ ⟨60, by decide⟩ (by decide)

/-- C6: for every level l in {0,1,2,3}, converting to the representative
hardware percent and back reproduces l, so the round trip
`level_to_qmk_pct (pct_to_level (level_to_qmk_pct l))` is stable. -/
theorem level_pct_round_trip :
    ∀ l : Fin 4,
      pct_to_level (level_to_qmk_pct l.val) = l.val ∧
      level_to_qmk_pct (pct_to_level (level_to_qmk_pct l.val)) = level_to_qmk_pct l.val := by
  decide

/-- C10: for every level l in {0,1,2,3}, quantizing its representative percent
to a protocol byte and reconstructing a percent from that byte yields a
percent that `pct_to_level` maps back to l, so a set followed by a get through
the device channel reads back the same discrete level. -/
theorem set_get_level_round_trip :
    ∀ l : Fin 4,
      pct_to_level (qmk_get_pct (qmk_set_val (level_to_qmk_pct l.val))) = l.val := by
  decide

/-! ### C8: grouping and master selection -/

/-- Initialization of a context emits no device-creation action of its own
(creation is recorded separately by the startup loop). -/
theorem init_ctx_no_create (s : Slot) (fd : Int) (gp : Target → Option Nat) (maxb : Nat) :
    (init_ctx s fd gp maxb).2.countP is_create_act = 0 := by
  rw [List.countP_eq_zero]
  intro a ha
  simp only [init_ctx, qmk_apply_all, qmk_apply_loop_none, List.mem_append,
    List.mem_cons, List.not_mem_nil, or_false, List.mem_singleton] at ha
  rcases ha with (h | h) | h
  · rcases h with h | h
    · subst h; simp [is_create_act]
    · subst h; simp [is_create_act]
  · by_cases h1 : 1 < s.targets.length
    · rw [if_pos h1] at h
      obtain ⟨t, _, rfl⟩ := List.mem_map.mp h
      simp [is_create_act]
    · rw [if_neg h1] at h
      simp at h
  · subst h; simp [is_create_act]

/-- The separate-mode grouping loop preserves the number of contexts. -/
theorem foldl_assign_sep_length (l : List Target) :
    ∀ cs : List Slot, (l.foldl assign_sep cs).length = cs.length := by
  induction l with
  | nil => intro cs; rfl
  | cons t rest ih =>
    intro cs
    rw [List.foldl_cons, ih]
    simp [assign_sep]

/-- The master-selection loop returns the first keyboard-category member, and
otherwise the initial candidate. -/
theorem pick_master_loop_find (l : List Target) :
    ∀ cur : Target,
      pick_master_loop l cur = (l.find? fun t => get_type t.pid == 0).getD cur := by
  induction l with
  | nil => intro cur; rfl
  | cons t rest ih =>
    intro cur
    by_cases h : (get_type t.pid == 0) = true
    · simp [pick_master_loop, List.find?_cons_of_pos, h]
    · simp only [Bool.not_eq_true] at h
      simp [pick_master_loop, List.find?_cons_of_neg, h, ih]

/-- C8 (amended): a virtual device is created exactly for the categories that
receive at least one member — exactly one group in unified mode for a
non-empty target set, and at most four groups in separate mode; each group's
master is the first member whose category is keyboard, else the first member
in scan order; and the targets 32ac:0012, 32ac:0014 in unified mode yield one
group named "framework::kbd_backlight" with 2 members and master 32ac:0012. -/
theorem grouping_spec :
    (∀ (a : Target) (l : List Target),
       (grouping .unified (a :: l)).countP (fun s => decide (0 < s.targets.length)) = 1) ∧
    (∀ (mode : Mode) (all : List Target),
       (grouping mode all).countP (fun s => decide (0 < s.targets.length)) ≤ 4) ∧
    (∀ (cs : List Slot) (cf : String → Int) (gp : Target → Option Nat) (maxb : Nat),
       match init_all cs cf gp maxb with
       | none => True
       | some (_, acts) =>
         acts.countP is_create_act = cs.countP fun s => decide (0 < s.targets.length)) ∧
    (∀ ts : List Target,
       pick_master ts = (ts.find? fun t => get_type t.pid == 0).getD (ts.headD default)) ∧
    ((grouping .unified [t12, t14]).headD default).name = "framework::kbd_backlight" ∧
    ((grouping .unified [t12, t14]).headD default).targets.length = 2 ∧
    (init_ctx ((grouping .unified [t12, t14]).headD default) 3
        (fun _ => some 0) 3).1.master = t12 := by
  refine ⟨?_, ?_, ?_, ?_, rfl, rfl, by decide⟩
  · intro a l
    have hd : (default : Slot).targets = [] := rfl
    simp [grouping, List.countP_cons, hd]
  · intro mode all
    have hlen : (grouping mode all).length = 4 := by
      cases mode with
      | unified => rfl
      | separate =>
        show (all.foldl assign_sep init_slots).length = 4
        rw [foldl_assign_sep_length]
        rfl
    calc (grouping mode all).countP (fun s => decide (0 < s.targets.length))
        ≤ (grouping mode all).length := List.countP_le_length _
      _ = 4 := hlen
  · intro cs cf gp maxb
    induction cs with
    | nil => simp [init_all]
    | cons s rest ih =>
      by_cases hne : 0 < s.targets.length
      · by_cases hcf : cf s.name < 0
        · simp [init_all, hne, hcf]
        · simp only [init_all, hne, if_true, hcf, if_false, ite_true, ite_false]
          cases hrec : init_all rest cf gp maxb with
          | none => simp
          | some pr =>
            obtain ⟨ss, acts⟩ := pr
            rw [hrec] at ih
            simp only [List.countP_cons, List.countP_append, init_ctx_no_create, ih]
            simp [is_create_act, hne]
            omega
      · simp only [init_all, hne, if_false, ite_false]
        cases hrec : init_all rest cf gp maxb with
        | none => simp
        | some pr =>
          obtain ⟨ss, acts⟩ := pr
          rw [hrec] at ih
          simp only [List.countP_cons, ih]
          simp [hne]
  · intro ts
    exact pick_master_loop_find ts (ts.headD default)

/-- C8 counterexample: in the scenario of discovery finding 32ac:0012 and
32ac:0014 in unified mode, no group carries the name "kbd_backlight"; the
single group's name is "framework::kbd_backlight". -/
theorem group_name_not_short :
    ((grouping .unified [t12, t14]).headD default).name ≠ "kbd_backlight" ∧
    ∀ s ∈ grouping .unified [t12, t14], s.name ≠ "kbd_backlight" := by
  decide

/-! ### C9: zero-member contexts and the handle-validity guard -/

/-- C9 evidence: after a successful startup in unified mode with the single
target 32ac:0012, context 1 has zero member targets and yet its virtual-device
handle is 0 — inherited from zero-initialization, never set to -1 — so the
event loop's handle-validity guard (fd ≥ 0) does not exclude it. -/
theorem zero_member_ctx_not_excluded :
    startup_kbd_only.isSome = true ∧
    ((startup_kbd_only.getD ([], [])).1.getD 1 default).targets = [] ∧
    ((startup_kbd_only.getD ([], [])).1.getD 1 default).fd = 0 ∧
    ¬ ((startup_kbd_only.getD ([], [])).1.getD 1 default).fd < 0 := by
  decide

end FW16
